import Mathlib

/-!
Shallow embedding of the Feima Copilot extension core
(repository `feima-copilot-llms-extension`), covering:

* `OAuth2Service.shouldRefreshToken`     (src/src/auth/oauth2Service.ts)
* `FeimaAuthenticationService.getSessions` and its helpers
  (the authentication-service document inside
   src/src/platform/log/common/logService.ts)
* `ModelCatalogService` fetch/caching and `getDefaultCompletionModel`
  (src/src/extension/models/modelCatalog.ts)
* `FeimaChatEndpoint.validateRequest`, `makeChatRequest` and the SSE
  parser `_parseSSEStream` (src/src/extension/models/feimaChatEndpoint.ts)
* `FeimaLanguageModelWrapper.provideLanguageModelResponse` callback logic
  (src/src/extension/models/languageModelWrapper.ts)

Modelling conventions:
* asynchronous I/O results (token refresh, HTTP fetch) are inputs of an
  environment record; a TypeScript `throw` is an `Except.error`;
* JavaScript truthiness on optional strings / numbers is made explicit
  (`jsTruthyStr`, `jsFalsyNum`): `undefined` and `""`/`0` are falsy;
* JSON blobs that the code only parses or stores are abstracted by the
  parsed record, with a dedicated constructor for unparseable content;
* wall-clock reads (`Date.now()`) become explicit `now` parameters.
-/

deriving instance DecidableEq for Except

/-! ## OAuth2 token model (src/src/auth/oauth2Service.ts) -/

/-- `ITokenResponse` from oauth2Service.ts: `access_token` required,
`refresh_token` / `expires_in` / `id_token` optional. -/
structure ITokenResponse where
  access_token : String
  refresh_token : Option String := none
  expires_in : Option Int := none
  token_type : String := "Bearer"
  id_token : Option String := none
deriving DecidableEq, Repr

/-- JavaScript truthiness of an optional string: `undefined` and `""` are falsy. -/
def jsTruthyStr : Option String → Bool
  | none => false
  | some s => s ≠ ""

/-- JavaScript falsiness of an optional number: `undefined` and `0` are falsy
(`!tokenResponse.expires_in`). -/
def jsFalsyNum : Option Int → Bool
  | none => true
  | some e => e = 0

namespace OAuth2Service

/-- `OAuth2Service.shouldRefreshToken` (oauth2Service.ts lines 435-446):
`if (!tokenResponse.expires_in) return false;` then compares
`issuedAt + expires_in*1000 - Date.now() < 5*60*1000`.  `Date.now()` is the
explicit `now` argument here. -/
def shouldRefreshToken (t : ITokenResponse) (issuedAt now : Int) : Bool :=
  if jsFalsyNum t.expires_in then false
  else
    let expiresAt : Int := issuedAt + t.expires_in.getD 0 * 1000
    let timeUntilExpiry : Int := expiresAt - now
    let fiveMinutes : Int := 5 * 60 * 1000
    decide (timeUntilExpiry < fiveMinutes)

end OAuth2Service

/-! ## Authentication service state
(FeimaAuthenticationService, second document of
src/src/platform/log/common/logService.ts) -/

/-- `IStoredTokenData`: the JSON blob stored under the secret-store key
`feimaAuth.tokens`. -/
structure IStoredTokenData where
  tokenResponse : ITokenResponse
  issuedAt : Int
  sessionId : String
  accountId : String
  accountLabel : String
deriving DecidableEq, Repr

/-- The host-facing `vscode.AuthenticationSession` projection
`{id, accessToken, account:{id,label}, scopes:[]}` (scopes always empty). -/
structure AuthSession where
  id : String
  accessToken : String
  accountId : String
  accountLabel : String
deriving DecidableEq, Repr

/-- A fired `onDidChangeSessions` event. -/
structure SessionChangeEvent where
  added : List AuthSession
  removed : List AuthSession
deriving DecidableEq, Repr

/-- Secret-store content: `none` = key absent; `some (.error ())` = a blob
whose `JSON.parse` fails; `some (.ok d)` = a parseable blob. -/
abbrev SecretBlob := Except Unit IStoredTokenData

/-- Mutable state of `FeimaAuthenticationService`: the secret store slot for
`feimaAuth.tokens`, the `_cachedSessions` slot, and the list of events fired
so far on `_onDidChangeSessions`. -/
structure AuthState where
  secret : Option SecretBlob
  cached : List AuthSession
  events : List SessionChangeEvent
deriving DecidableEq, Repr

/-- Environment of one `getSessions` call: the wall clock and the outcome the
identity provider would give to `refreshAccessToken` (`.error` = non-2xx or
transport failure, i.e. the thrown `Token refresh failed`). -/
structure AuthEnv where
  now : Int
  refreshOutcome : Except Unit ITokenResponse
deriving DecidableEq, Repr

namespace FeimaAuthenticationService

/-- `_loadStoredToken`: read the blob; `undefined` if absent; a JSON.parse
failure is logged and yields `undefined` (the blob itself is left in place). -/
def loadStoredToken (st : AuthState) : Option IStoredTokenData :=
  match st.secret with
  | none => none
  | some (Except.error _) => none
  | some (Except.ok d) => some d

/-- Session view built from stored data with a given access token
(the object literal repeated in `getSessions`). -/
def sessionOf (stored : IStoredTokenData) (accessToken : String) : AuthSession :=
  { id := stored.sessionId
    accessToken := accessToken
    accountId := stored.accountId
    accountLabel := stored.accountLabel }

/-- `getSessions` (logService.ts document 2, lines 420-474).  Always consults
the secret store; on an absent or unparseable blob clears the cache and
returns `[]`; refreshes when `shouldRefreshToken` holds and a refresh token is
available, preserving the stored refresh token when the refresh response
carries none; on refresh failure clears the stored token and the cache and
returns `[]`.  No event is ever fired on any of these paths. -/
def getSessions (env : AuthEnv) (st : AuthState) : AuthState × List AuthSession :=
  match loadStoredToken st with
  | none => ({ st with cached := [] }, [])
  | some stored =>
    if OAuth2Service.shouldRefreshToken stored.tokenResponse stored.issuedAt env.now
        ∧ jsTruthyStr stored.tokenResponse.refresh_token then
      match env.refreshOutcome with
      | Except.ok refreshed0 =>
        -- `if (!refreshed.refresh_token) refreshed.refresh_token = stored...`
        let refreshed :=
          if jsTruthyStr refreshed0.refresh_token then refreshed0
          else { refreshed0 with refresh_token := stored.tokenResponse.refresh_token }
        -- `_saveToken(refreshed, accountId, accountLabel, sessionId)`
        let newData : IStoredTokenData :=
          { tokenResponse := refreshed
            issuedAt := env.now
            sessionId := stored.sessionId
            accountId := stored.accountId
            accountLabel := stored.accountLabel }
        let sess := sessionOf stored refreshed.access_token
        ({ st with secret := some (Except.ok newData), cached := [sess] }, [sess])
      | Except.error _ =>
        -- catch: log, `_clearStoredToken()`, `_cachedSessions = []`, return []
        ({ st with secret := none, cached := [] }, [])
    else
      let sess := sessionOf stored stored.tokenResponse.access_token
      ({ st with cached := [sess] }, [sess])

/-- `removeSession` (logService.ts document 2, lines 572-602): no-op unless the
stored session matches the id; otherwise clears the blob and cache and fires a
`{removed:[snapshot]}` event.  Included so that the event list in `AuthState`
is written by some operation of the model. -/
def removeSession (st : AuthState) (sessionId : String) : AuthState :=
  match loadStoredToken st with
  | none => st
  | some stored =>
    if stored.sessionId ≠ sessionId then st
    else
      let snapshot := sessionOf stored stored.tokenResponse.access_token
      { st with
          secret := none
          cached := []
          events := st.events ++ [{ added := [], removed := [snapshot] }] }

end FeimaAuthenticationService

/-! ## Model catalog (src/src/extension/models/modelCatalog.ts) -/

/-- `capabilities.type` of a model descriptor; `other` stands for any value
outside the three known capability types (such descriptors are silently
dropped by the categorization loop). -/
inductive ModelType where
  | chat
  | completion
  | embeddings
  | other
deriving DecidableEq, Repr

/-- The `capabilities` sub-record of `FeimaModelAPIResponse`; fields the
embedded operations never read are omitted. -/
structure ModelCapabilities where
  type : ModelType
  family : String := ""
deriving DecidableEq, Repr

/-- `FeimaModelAPIResponse` (modelCatalog.ts): a catalog entry.  Only fields
read by the embedded operations are kept; `is_chat_default` is optional in
the source (`is_chat_default?: boolean`). -/
structure FeimaModelAPIResponse where
  id : String
  name : String := ""
  model_picker_enabled : Bool := true
  is_chat_default : Option Bool := none
  capabilities : ModelCapabilities
deriving DecidableEq, Repr

/-- The gateway's reply to `GET {apiBaseUrl}/models`: HTTP status data plus
the parsed JSON body.  `payload = none` models a body whose `data` field is
absent or not an array (`Invalid models response format`). -/
structure ModelsFetchResponse where
  ok : Bool
  status : Nat
  statusText : String := ""
  payload : Option (List FeimaModelAPIResponse) := none
deriving DecidableEq, Repr

/-- Mutable state of `ModelCatalogService`: the three per-type lists,
`_lastFetch`, and the error messages logged so far. -/
structure CatalogState where
  chatModels : List FeimaModelAPIResponse
  completionModels : List FeimaModelAPIResponse
  embeddingModels : List FeimaModelAPIResponse
  lastFetch : Int
  logs : List String
deriving DecidableEq, Repr

/-- Environment of one catalog fetch: the wall clock, the access token the
auth service would yield (`none` = not authenticated, mirroring
`getToken()`/`isAuthenticated()`), and the transport outcome of the models
GET (`.error` = thrown/aborted fetch). -/
structure CatalogEnv where
  now : Int
  authToken : Option String
  fetchOutcome : Except Unit ModelsFetchResponse
deriving DecidableEq, Repr

namespace ModelCatalogService

/-- The categorization loop of `_fetchIfNeeded`: push each descriptor onto
the list matching its `capabilities.type`; unknown types are dropped. -/
def categorize : List FeimaModelAPIResponse →
    List FeimaModelAPIResponse × List FeimaModelAPIResponse × List FeimaModelAPIResponse →
    List FeimaModelAPIResponse × List FeimaModelAPIResponse × List FeimaModelAPIResponse
  | [], acc => acc
  | m :: ms, (cs, ps, es) =>
    match m.capabilities.type with
    | ModelType.chat => categorize ms (cs ++ [m], ps, es)
    | ModelType.completion => categorize ms (cs, ps ++ [m], es)
    | ModelType.embeddings => categorize ms (cs, ps, es ++ [m])
    | ModelType.other => categorize ms (cs, ps, es)

/-- The body of the `try` block in `_fetchIfNeeded` (modelCatalog.ts lines
209-271): a thrown error is an `Except.error` carrying the error message. -/
def fetchAttempt (env : CatalogEnv) (st : CatalogState) : Except String CatalogState :=
  match env.authToken with
  | none => Except.error "No access token available"
  | some accessToken =>
    if accessToken = "" then Except.error "No access token available"
    else
      match env.fetchOutcome with
      | Except.error _ => Except.error "fetch failed"
      | Except.ok resp =>
        if ¬ resp.ok then
          Except.error ("Failed to fetch models: " ++ toString resp.status ++ " " ++ resp.statusText)
        else
          match resp.payload with
          | none => Except.error "Invalid models response format"
          | some models =>
            -- clear the three caches, categorize, update `_lastFetch`
            let (cs, ps, es) := categorize models ([], [], [])
            Except.ok { st with
              chatModels := cs
              completionModels := ps
              embeddingModels := es
              lastFetch := env.now }

/-- The `cacheValid` test of `_fetchIfNeeded`:
`(chat non-empty or completion non-empty) and now - lastFetch < 5 minutes`. -/
def cacheValid (env : CatalogEnv) (st : CatalogState) : Bool :=
  (st.chatModels ≠ [] ∨ st.completionModels ≠ [])
    ∧ decide (env.now - st.lastFetch < 5 * 60 * 1000)

/-- `_fetchIfNeeded(force)` (modelCatalog.ts lines 193-276): skip when the
cache is valid and not forced, skip when unauthenticated, otherwise run the
fetch body; any thrown error is caught, logged, and swallowed (the prior
caches stay untouched). -/
def fetchIfNeeded (env : CatalogEnv) (st : CatalogState) (force : Bool) : CatalogState :=
  if cacheValid env st ∧ ¬ force then st
  else if env.authToken.isNone then st
  else
    match fetchAttempt env st with
    | Except.ok st' => st'
    | Except.error msg => { st with logs := st.logs ++ [msg ++ ": Error fetching models"] }

/-- `getChatModels()`: `await this._fetchIfNeeded(); return [...this._chatModels]`. -/
def getChatModels (env : CatalogEnv) (st : CatalogState) :
    CatalogState × List FeimaModelAPIResponse :=
  let st' := fetchIfNeeded env st false
  (st', st'.chatModels)

/-- `getCompletionModels()`. -/
def getCompletionModels (env : CatalogEnv) (st : CatalogState) :
    CatalogState × List FeimaModelAPIResponse :=
  let st' := fetchIfNeeded env st false
  (st', st'.completionModels)

/-- `getEmbeddingModels()`. -/
def getEmbeddingModels (env : CatalogEnv) (st : CatalogState) :
    CatalogState × List FeimaModelAPIResponse :=
  let st' := fetchIfNeeded env st false
  (st', st'.embeddingModels)

/-- `getDefaultCompletionModel` (modelCatalog.ts lines 157-161) applied to the
completion-model list returned by `getCompletionModels()`:
`models.find(m => m.is_chat_default) || models[0]` — `find` matches the first
model whose optional `is_chat_default` is truthy (i.e. `some true`); a found
model object is always truthy, so `models[0]` is used only when `find`
returns `undefined`. -/
def getDefaultCompletionModel (models : List FeimaModelAPIResponse) :
    Option FeimaModelAPIResponse :=
  match models.find? (fun m => m.is_chat_default.getD false) with
  | some m => some m
  | none => models.head?

end ModelCatalogService

/-! ## Chat endpoint: messages and request validation
(src/src/extension/models/feimaChatEndpoint.ts) -/

/-- `vscode.LanguageModelChatMessageRole`; any role other than User/Assistant
is mapped to `system` by the wire translation. -/
inductive ChatRole where
  | user
  | assistant
  | other
deriving DecidableEq, Repr

/-- A content part of a host chat message.  `toolCall` mirrors
`LanguageModelToolCallPart {callId, name, input}` (the JSON `input` object is
abstracted by its serialized string); `toolResult` mirrors
`LanguageModelToolResultPart {callId, content}`; `data` mirrors
`LanguageModelDataPart`. -/
inductive MessagePart where
  | text (value : String)
  | toolCall (callId : String) (name : String) (input : String)
  | toolResult (callId : String) (content : String)
  | data
deriving DecidableEq, Repr

/-- A host chat message.  The source accepts `string | parts[]` content and
wraps a bare string into a one-element array before every traversal, so a
list of parts is the uniform representation. -/
structure ChatMessage where
  role : ChatRole
  content : List MessagePart
deriving DecidableEq, Repr

/-- `vscode.LanguageModelChatTool`: only `name` and `description` are read by
validation. -/
structure ChatTool where
  name : String
  description : String := ""
deriving DecidableEq, Repr

/-- `vscode.LanguageModelChatToolMode`. -/
inductive ToolMode where
  | auto
  | required
deriving DecidableEq, Repr

namespace FeimaChatEndpoint

/-- The error message thrown by the tool-call/result pairing validation. -/
def pairingErrMsg : String :=
  "Invalid request: Tool call must be followed by User message with LanguageModelToolResultPart with matching callId."

/-- A character allowed by the tool-name pattern `^[\w-]+$`
(ASCII alphanumerics, underscore, hyphen). -/
def isToolNameChar (c : Char) : Bool :=
  c.isAlphanum || c = '_' || c = '-'

/-- `tool.name.match(/^[\w-]+$/)`: non-empty and every character allowed. -/
def validToolName (s : String) : Bool :=
  s ≠ "" && s.all isToolNameChar

/-- `_validateTools` (feimaChatEndpoint.ts lines 467-494): first the name
loop (throwing at the first invalid name), then the 128-tool cap, then the
Required-with-multiple-tools check.  The trailing `supportsToolCalls` branch
only logs a warning and cannot affect the result, so it is not represented. -/
def validateTools (tools : List ChatTool) (toolMode : ToolMode) : Except String Unit :=
  match tools.find? (fun t => ¬ validToolName t.name) with
  | some t =>
    Except.error ("Invalid tool name \"" ++ t.name ++
      "\": only alphanumeric characters, hyphens, and underscores are allowed.")
  | none =>
    if tools.length > 128 then
      Except.error "Cannot have more than 128 tools per request."
    else if toolMode = ToolMode.required ∧ tools.length > 1 then
      Except.error "error.toolModeNotSupported"
    else
      Except.ok ()

/-- Append an id unless already present — `Set.add` on iteration order. -/
def insertUnique (l : List String) (s : String) : List String :=
  if s ∈ l then l else l ++ [s]

/-- `new Set(filteredContent.filter(instanceof ToolCallPart).map(callId))`:
data parts are filtered out first (they are never tool calls, mirrored for
fidelity), then the tool-call ids are collected without duplicates. -/
def collectToolCallIds (content : List MessagePart) : List String :=
  ((content.filter (fun p => match p with | MessagePart.data => false | _ => true)).filterMap
    (fun p => match p with | MessagePart.toolCall callId _ _ => some callId | _ => none)).foldl
    insertUnique []

/-- The inner part-loop of the pairing validation: every part of the User
message following a tool call must be a tool-result or data part; tool
results mark `foundAnyResult` and delete their `callId` from the pending
set. -/
def checkParts (parts : List MessagePart) (ids : List String) (found : Bool) :
    Except String (List String × Bool) :=
  match parts with
  | [] => Except.ok (ids, found)
  | p :: ps =>
    match p with
    | MessagePart.toolResult callId _ => checkParts ps (ids.erase callId) true
    | MessagePart.data => checkParts ps ids found
    | _ => Except.error pairingErrMsg

/-- The `while (toolCallIds.size > 0)` loop (feimaChatEndpoint.ts lines
422-452): consume following messages, each of which must be a User message
whose parts are exclusively tool results or data parts and which contains at
least one result; stop when every pending id has been matched.  (The
post-loop `if (toolCallIds.size > 0)` throw in the source is unreachable:
the loop only exits with an empty set or by throwing.) -/
def pairLoop (ids : List String) (rest : List ChatMessage) : Except String Unit :=
  match ids with
  | [] => Except.ok ()
  | _ :: _ =>
    match rest with
    | [] => Except.error pairingErrMsg
    | nextMessage :: rest' =>
      if nextMessage.role ≠ ChatRole.user then Except.error pairingErrMsg
      else
        match checkParts nextMessage.content ids false with
        | Except.error e => Except.error e
        | Except.ok (ids', found) =>
          if found then pairLoop ids' rest' else Except.error pairingErrMsg

/-- The `messages.forEach` of `validateRequest` (lines 401-460): for every
Assistant message carrying tool calls, run the pairing loop over the
messages that follow it. -/
def validatePairing : List ChatMessage → Except String Unit
  | [] => Except.ok ()
  | m :: rest =>
    match
      (if m.role = ChatRole.assistant then
        let ids := collectToolCallIds m.content
        if ids ≠ [] then pairLoop ids rest else Except.ok ()
      else Except.ok ()) with
    | Except.error e => Except.error e
    | Except.ok _ => validatePairing rest

/-- `validateRequest` (feimaChatEndpoint.ts lines 381-461): empty-message
check, then tool validation when a tools array was supplied (an empty array
is truthy in JavaScript, so `some []` still runs `_validateTools`), then the
tool-call/result pairing scan. -/
def validateRequest (messages : List ChatMessage) (tools : Option (List ChatTool))
    (toolMode : ToolMode) : Except String Unit :=
  if messages.isEmpty then Except.error "Invalid request: no messages."
  else
    match (match tools with
           | some ts => validateTools ts toolMode
           | none => Except.ok ()) with
    | Except.error e => Except.error e
    | Except.ok _ => validatePairing messages

end FeimaChatEndpoint

/-! ## Chat endpoint: makeChatRequest
(src/src/extension/models/feimaChatEndpoint.ts lines 527-626) -/

/-- `ChatResponse` from feimaChatEndpoint.ts: the structured result union
`success | error | blocked | quotaExceeded | rateLimited` (each non-success
variant carries a `reason`). -/
inductive ChatResponse where
  | success
  | error (reason : String)
  | blocked (reason : String)
  | quotaExceeded (reason : String)
  | rateLimited (reason : String)
deriving DecidableEq, Repr

/-- The gateway's reply to `POST {apiBaseUrl}/chat/completions`: status data,
error body text, the two headers the classifier reads, and whether a readable
body is present.  The SSE content of a successful body is modelled separately
(`FeimaChatEndpoint.runRequest`). -/
structure GatewayResponse where
  ok : Bool
  status : Nat
  bodyText : String := ""
  retryAfterHeader : Option String := none
  xErrorTypeHeader : Option String := none
  hasBody : Bool := true
deriving DecidableEq, Repr

/-- Environment of one `makeChatRequest` call: the session list the auth
service's `getSessions` yields (deterministic within the call), and the
gateway's response to the chat POST. -/
structure ChatRequestEnv where
  sessions : List AuthSession
  response : GatewayResponse
deriving DecidableEq, Repr

/-- `errorText.includes("quota")`: `splitOn` yields more than one piece iff
the pattern occurs. -/
def strIncludes (s pat : String) : Bool :=
  (s.splitOn pat).length > 1

/-- `vscode.l10n.t(message, ...args)`: with no translation bundle applied the
first argument is returned (none of the keys used here contain `{0}`-style
placeholders, so the extra arguments are dropped).  No claim depends on
localized texts. -/
def l10nT (message : String) (_args : List String) : String :=
  message

namespace FeimaChatEndpoint

/-- `getAuthToken` (feimaChatEndpoint.ts lines 204-217): first session's
access token, or a thrown `Not authenticated` error when `getSessions`
returns no session (the catch clause logs and rethrows). -/
def getAuthToken (env : ChatRequestEnv) : Except String String :=
  match env.sessions with
  | [] => Except.error "Not authenticated"
  | s :: _ => Except.ok s.accessToken

/-- `makeChatRequest` (feimaChatEndpoint.ts lines 527-626).  Returns the
(thrown-or-returned) outcome together with the number of HTTP requests
issued to the gateway.  Control flow mirrored from the source:
1. `validateRequest` — throws before anything else;
2. `await this.getAuthToken()` — NOT inside the `try` block, so a thrown
   `Not authenticated` escapes to the caller;
3. the dead `if (!authToken)` guard (reachable only when a session exists
   with an empty access token);
4. inside the `try`: `getHeaders` (a second `getAuthToken`, which succeeds
   whenever step 2 did, the environment being fixed), the `fetch`, and
   the status classification (403 → blocked; 429 → quotaExceeded when the
   body mentions `quota` or the `x-error-type: quota_exceeded` header is
   present, else rateLimited; otherwise a structured error);
5. `response.body` absent → structured `No response body` error;
6. SSE consumption (modelled separately by `runRequest` below; a callback
   throw at the `[DONE]`/stream-end call sites is caught by the surrounding
   `catch` and becomes a structured error) — the non-throwing outcome is
   `success`. -/
def makeChatRequest (env : ChatRequestEnv) (messages : List ChatMessage)
    (tools : Option (List ChatTool)) (toolMode : ToolMode) :
    Except String ChatResponse × Nat :=
  match validateRequest messages tools toolMode with
  | Except.error e => (Except.error e, 0)
  | Except.ok _ =>
    match getAuthToken env with
    | Except.error e => (Except.error e, 0)
    | Except.ok authToken =>
      if authToken = "" then
        (Except.ok (ChatResponse.error "Authentication failed: no token available"), 0)
      else
        let resp := env.response
        if ¬ resp.ok then
          if resp.status = 403 then
            (Except.ok (ChatResponse.blocked (l10nT "error.extensionBlocked"
              ["The extension has been temporarily blocked due to too many requests"])), 1)
          else if resp.status = 429 then
            let isQuota := strIncludes resp.bodyText "quota"
              ∨ resp.xErrorTypeHeader = some "quota_exceeded"
            if isQuota then
              (Except.ok (ChatResponse.quotaExceeded
                (l10nT "error.quotaExceeded" ["Request quota exceeded"])), 1)
            else
              (Except.ok (ChatResponse.rateLimited
                (l10nT "error.rateLimited" ["Too many requests, please retry later"])), 1)
          else
            (Except.ok (ChatResponse.error
              (l10nT "error.httpRequest" [toString resp.status, resp.bodyText])), 1)
        else if ¬ resp.hasBody then
          (Except.ok (ChatResponse.error (l10nT "error.noResponseBody" [])), 1)
        else
          (Except.ok ChatResponse.success, 1)

end FeimaChatEndpoint

/-! ## SSE stream parsing (`_parseSSEStream`,
src/src/extension/models/feimaChatEndpoint.ts lines 632-774) -/

/-- An accumulating tool-call entry of the per-request `toolCallsMap`
(`{id, name, arguments}`); the same shape is used for the entries placed in
`StreamDelta.toolCalls`. -/
structure ToolCallEntry where
  id : String
  name : String
  arguments : String
deriving DecidableEq, Repr

/-- One element of a `delta.tool_calls` array: `index` (`?? 0` when absent),
optional `id`, optional `function.name`, optional `function.arguments`. -/
structure ToolCallFragment where
  index : Option Nat := none
  id : Option String := none
  fnName : Option String := none
  fnArguments : Option String := none
deriving DecidableEq, Repr

/-- `StreamDelta` from feimaChatEndpoint.ts: optional text, optional
completed tool calls, optional thinking / stateful-marker content. -/
structure StreamDelta where
  text : Option String := none
  toolCalls : Option (List ToolCallEntry) := none
  thinking : Option String := none
  stateful_marker : Option String := none
deriving DecidableEq, Repr

/-- One `data:` line of the SSE stream, abstracted at the parsed-JSON level:
`[DONE]`; a line whose `JSON.parse` fails (or whose parsed object makes the
field accesses throw, e.g. a missing `delta`) — logged and skipped; a parsed
event without `choices[0]` — skipped; or a parsed event carrying the fields
of `choices[0].delta` plus `choices[0].finish_reason`. -/
inductive SSEData where
  | done
  | malformed
  | noChoice
  | event (content : Option String) (thinking : Option String)
      (stateful_marker : Option String)
      (tool_calls : Option (List ToolCallFragment))
      (finish_reason : Option String)
deriving DecidableEq, Repr

/-- The endpoint's per-request stream state: the running `fullText`
accumulator and the insertion-ordered `toolCallsMap` keyed by fragment
index. -/
structure SSEState where
  fullText : String
  toolCallsMap : List (Nat × ToolCallEntry)
deriving DecidableEq, Repr

namespace FeimaChatEndpoint

/-- `toolCallsMap.get(index)` on the insertion-ordered association list. -/
def mapGet (m : List (Nat × ToolCallEntry)) (index : Nat) : Option ToolCallEntry :=
  match m.find? (fun e => e.fst = index) with
  | some e => some e.snd
  | none => none

/-- In-place update of the entry at `index` by appending `args` to its
`arguments` (the `existing.arguments += toolCall.function.arguments`
branch). -/
def mapAppendArgs (m : List (Nat × ToolCallEntry)) (index : Nat) (args : String) :
    List (Nat × ToolCallEntry) :=
  m.map (fun e =>
    if e.fst = index then (e.fst, { e.snd with arguments := e.snd.arguments ++ args })
    else e)

/-- Processing of one `tool_calls` fragment (lines 714-731): look up by
`index ?? 0`; on an existing entry only `function.arguments` is appended
(when truthy); a new entry is created with `id`, `function.name` and
`function.arguments` each defaulted to `""` (`|| ''`). -/
def processFragment (m : List (Nat × ToolCallEntry)) (tc : ToolCallFragment) :
    List (Nat × ToolCallEntry) :=
  let index := tc.index.getD 0
  match mapGet m index with
  | some _ =>
    match tc.fnArguments with
    | some a => if a ≠ "" then mapAppendArgs m index a else m
    | none => m
  | none =>
    m ++ [(index, { id := tc.id.getD "", name := tc.fnName.getD "",
                    arguments := tc.fnArguments.getD "" })]

/-- `Array.from(toolCallsMap.values()).filter(call => call.id && call.name)`:
the entries with non-empty id and name, in insertion order. -/
def completedCalls (m : List (Nat × ToolCallEntry)) : List ToolCallEntry :=
  (m.map Prod.snd).filter (fun call => call.id ≠ "" && call.name ≠ "")

/-- Processing of one `data:` line (lines 669-756): returns the updated
stream state and the deltas passed to the callback (zero or one).
At `[DONE]` the accumulated complete tool calls are emitted — the map is NOT
cleared.  For an ordinary event: truthy `content` extends `fullText` and is
emitted immediately; truthy `thinking` / `stateful_marker` ride along;
`tool_calls` fragments are accumulated silently; when `finish_reason` is
truthy and the map is non-empty, the complete entries are set on the delta —
again without clearing the map.  The callback is invoked only when the delta
carries text or tool calls. -/
def processData (st : SSEState) (d : SSEData) : SSEState × List StreamDelta :=
  match d with
  | SSEData.done =>
    if st.toolCallsMap ≠ [] then
      let completed := completedCalls st.toolCallsMap
      if completed ≠ [] then (st, [{ toolCalls := some completed }]) else (st, [])
    else (st, [])
  | SSEData.malformed => (st, [])
  | SSEData.noChoice => (st, [])
  | SSEData.event content thinkingC marker frags finish =>
    let (fullText, textField) :=
      match content with
      | some c => if c ≠ "" then (st.fullText ++ c, some c) else (st.fullText, none)
      | none => (st.fullText, none)
    let thinkField : Option String :=
      match thinkingC with
      | some t => if t ≠ "" then some t else none
      | none => none
    let markField : Option String :=
      match marker with
      | some t => if t ≠ "" then some t else none
      | none => none
    let m :=
      match frags with
      | some fs => fs.foldl processFragment st.toolCallsMap
      | none => st.toolCallsMap
    let tcField : Option (List ToolCallEntry) :=
      match finish with
      | some f =>
        if f ≠ "" ∧ m ≠ [] then
          let completed := completedCalls m
          if completed ≠ [] then some completed else none
        else none
      | none => none
    let st' : SSEState := { fullText := fullText, toolCallsMap := m }
    let delta : StreamDelta :=
      { text := textField, toolCalls := tcField,
        thinking := thinkField, stateful_marker := markField }
    if delta.text.isSome ∨ delta.toolCalls.isSome then (st', [delta]) else (st', [])

/-- The callback-invocation sequence produced by `_parseSSEStream` over a
whole stream, assuming a callback that never throws: every per-line delta in
order, followed by the stream-end safety flush (lines 761-770), which emits
the still-uncleared complete entries once more. -/
def parseSSEDeltas (events : List SSEData) : List StreamDelta :=
  let (final, out) :=
    events.foldl
      (fun acc d =>
        let (st', ds) := processData acc.fst d
        (st', acc.snd ++ ds))
      (({ fullText := "", toolCallsMap := [] } : SSEState), ([] : List StreamDelta))
  if final.toolCallsMap ≠ [] then
    let completed := completedCalls final.toolCallsMap
    if completed ≠ [] then out ++ [{ toolCalls := some completed }] else out
  else out

end FeimaChatEndpoint

/-! ## Chat wrapper (`FeimaLanguageModelWrapper.provideLanguageModelResponse`,
src/src/extension/models/languageModelWrapper.ts lines 26-157) -/

/-- A part reported to the host progress sink.  The `parameters` argument of
`LanguageModelToolCallPart` (the parsed JSON object) is abstracted by the
argument string it was parsed from.  (The wrapper's thinking branch reads
`delta.reasoningContent`, a field `StreamDelta` does not have, so it never
fires and is not represented.) -/
inductive ReportedPart where
  | textPart (value : String)
  | toolCallPart (callId : String) (name : String) (args : String)
deriving DecidableEq, Repr

/-- The wrapper's per-request state: the `reportedToolCallIds` set (as the
list of ids in reverse insertion order) and the parts reported to the
progress sink so far. -/
structure WrapperState where
  reported : List String
  out : List ReportedPart
deriving DecidableEq, Repr

namespace FeimaLanguageModelWrapper

/-- The tool-call loop of the wrapper callback (languageModelWrapper.ts lines
70-120), processing the calls of a delta in order.  `jsonOk args` models
"`JSON.parse(args)` succeeds and yields a non-null object value" — the claims
hold for every such oracle.  Returns the state together with `true` when the
loop threw (invalid JSON format, parse failure, or a non-object parse
result); a throw stops the loop, keeping everything reported so far. -/
def processCalls (jsonOk : String → Bool) (w : WrapperState) :
    List ToolCallEntry → WrapperState × Bool
  | [] => (w, false)
  | call :: cs =>
    if call.id = "" ∨ call.name = "" then
      processCalls jsonOk w cs            -- skip and log: missing id or name
    else if call.id ∈ w.reported then
      processCalls jsonOk w cs            -- skip and log: DUPLICATE
    else
      let argsStr := if call.arguments = "" then "\x7b\x7d" else call.arguments
      let trimmedArgs := argsStr.trim
      if ¬ (trimmedArgs.startsWith "\x7b" ∨ trimmedArgs.startsWith "[") then
        (w, true)                         -- throw: not a JSON object/array
      else if ¬ jsonOk argsStr then
        (w, true)                         -- throw: parse failure / non-object
      else
        let w' : WrapperState :=
          { reported := call.id :: w.reported,
            out := w.out ++ [ReportedPart.toolCallPart call.id call.name argsStr] }
        processCalls jsonOk w' cs

/-- The text step of the wrapper callback:
`if (delta.text) progress.report(new LanguageModelTextPart(delta.text))`. -/
def reportText (w : WrapperState) (text : Option String) : WrapperState :=
  match text with
  | some t =>
    if t ≠ "" then { w with out := w.out ++ [ReportedPart.textPart t] } else w
  | none => w

/-- One invocation of the wrapper's `finishCallback` on a delta: report a
`TextPart` when `delta.text` is truthy, then run the tool-call loop when
`delta.toolCalls` is present.  `true` means the callback threw. -/
def onDelta (jsonOk : String → Bool) (w : WrapperState) (delta : StreamDelta) :
    WrapperState × Bool :=
  let w1 := reportText w delta.text
  match delta.toolCalls with
  | some calls => processCalls jsonOk w1 calls
  | none => (w1, false)

end FeimaLanguageModelWrapper

namespace FeimaChatEndpoint

/-- The combined endpoint+wrapper execution of one chat request over a
stream: `_parseSSEStream` drives the wrapper's `finishCallback`.
Call-site fidelity for callback throws:
* the per-event invocation (line 750) sits inside the per-line
  `try { ... } catch { log }`, so a throw there is swallowed and the stream
  continues (with the wrapper's id set retained);
* the `[DONE]` invocation (line 680) and the stream-end flush (line 768) are
  only inside the outer `try/finally`, so a throw there aborts the stream
  (skipping the flush).
Returns the final wrapper state, whose `out` is everything reported to the
host progress sink. -/
def runRequest (jsonOk : String → Bool) :
    List SSEData → SSEState → WrapperState → WrapperState
  | [], sse, w =>
    -- stream-end safety flush
    if sse.toolCallsMap ≠ [] then
      let completed := completedCalls sse.toolCallsMap
      if completed ≠ [] then
        (FeimaLanguageModelWrapper.onDelta jsonOk w { toolCalls := some completed }).fst
      else w
    else w
  | d :: ds, sse, w =>
    let (sse', deltas) := processData sse d
    match deltas with
    | [] => runRequest jsonOk ds sse' w
    | delta :: _ =>
      let (w', threw) := FeimaLanguageModelWrapper.onDelta jsonOk w delta
      match d with
      | SSEData.done => if threw then w' else runRequest jsonOk ds sse' w'
      | _ => runRequest jsonOk ds sse' w'

/-- A whole request from the initial states. -/
def runRequestFromStart (jsonOk : String → Bool) (events : List SSEData) : WrapperState :=
  runRequest jsonOk events { fullText := "", toolCallsMap := [] } { reported := [], out := [] }

end FeimaChatEndpoint

/-- The ids of the `ToolCallPart`s among a list of reported parts. -/
def emittedToolCallIds (parts : List ReportedPart) : List String :=
  parts.filterMap (fun p =>
    match p with
    | ReportedPart.toolCallPart callId _ _ => some callId
    | _ => none)

/-- `true` when a delta's `toolCalls` carry an entry with the given id. -/
def deltaCarriesId (delta : StreamDelta) (T : String) : Bool :=
  match delta.toolCalls with
  | some calls => calls.any (fun c => c.id = T)
  | none => false

/-! ## Concrete instances used by counterexamples and witnesses -/

/-- A token response whose `expires_in` is present but zero. -/
def c9Token : ITokenResponse := { access_token := "a", expires_in := some 0 }

/-- Environment for a chat request without any authenticated session. -/
def c3Env : ChatRequestEnv :=
  { sessions := [], response := { ok := true, status := 200 } }

/-- A minimal valid message list: one user message with text content. -/
def c3Messages : List ChatMessage :=
  [{ role := ChatRole.user, content := [MessagePart.text "hi"] }]

/-! ## C8 — empty message list fails validation before any HTTP call -/

/-- C8: for every environment and tool configuration, `makeChatRequest` with
an empty message list fails with the thrown `Invalid request: no messages.`
validation error, and zero HTTP requests are issued to the gateway. -/
theorem makeChatRequest_empty_messages (env : ChatRequestEnv)
    (tools : Option (List ChatTool)) (toolMode : ToolMode) :
    FeimaChatEndpoint.makeChatRequest env [] tools toolMode
      = (Except.error "Invalid request: no messages.", 0) := rfl

/-! ## C9 — shouldRefreshToken -/

/-- C9 (counterexample): the claim "returns true iff `expires_in` is present
and `issuedAt + expires_in*1000 - now < 300000`" fails at
`expires_in = some 0`, `issuedAt = now = 0`: the right-hand side holds but the
code returns `false`, because `!tokenResponse.expires_in` treats the number
`0` as falsy. -/
theorem shouldRefreshToken_claim_counterexample :
    ¬ (OAuth2Service.shouldRefreshToken c9Token 0 0 = true
        ↔ (c9Token.expires_in.isSome = true
            ∧ (0 : Int) + c9Token.expires_in.getD 0 * 1000 - 0 < 300000)) := by
  decide

/-- C9 (amended): `shouldRefreshToken t issuedAt now` returns true iff
`expires_in` is present AND non-zero and
`issuedAt + expires_in*1000 - now < 300000`; it returns false when
`expires_in` is absent (or zero, the JavaScript-falsy case). -/
theorem shouldRefreshToken_spec (t : ITokenResponse) (issuedAt now : Int) :
    OAuth2Service.shouldRefreshToken t issuedAt now = true
      ↔ ∃ e, t.expires_in = some e ∧ e ≠ 0 ∧ issuedAt + e * 1000 - now < 300000 := by
  rcases t with ⟨at_, rt, ei, tt, it⟩
  cases ei with
  | none => simp [OAuth2Service.shouldRefreshToken, jsFalsyNum]
  | some e =>
    by_cases he : e = 0
    · subst he
      simp [OAuth2Service.shouldRefreshToken, jsFalsyNum]
    · simp [OAuth2Service.shouldRefreshToken, jsFalsyNum, he]

/-! ## C10 — getDefaultCompletionModel -/

/-- `is_chat_default` is truthy (the optional boolean is present and true). -/
def isChatDefaultTruthy (m : FeimaModelAPIResponse) : Prop :=
  m.is_chat_default = some true

/-- C10: `getDefaultCompletionModel` returns the first completion model whose
`is_chat_default` flag is truthy; when no model is flagged it returns the
first element of the completion-model list; on the empty list it returns
`undefined` (`none`). -/
theorem getDefaultCompletionModel_spec (models : List FeimaModelAPIResponse) :
    (models = [] → ModelCatalogService.getDefaultCompletionModel models = none)
    ∧ ((∀ m ∈ models, ¬ isChatDefaultTruthy m) →
        ModelCatalogService.getDefaultCompletionModel models = models.head?)
    ∧ (∀ l₁ m l₂, models = l₁ ++ m :: l₂ → isChatDefaultTruthy m →
        (∀ x ∈ l₁, ¬ isChatDefaultTruthy x) →
        ModelCatalogService.getDefaultCompletionModel models = some m) := by
  refine ⟨?_, ?_, ?_⟩
  · rintro rfl
    rfl
  · intro hnone
    have hf : models.find? (fun m => m.is_chat_default.getD false) = none := by
      rw [List.find?_eq_none]
      intro x hx
      have := hnone x hx
      simp [isChatDefaultTruthy] at this
      rcases hd : x.is_chat_default with _ | b
      · simp [hd]
      · simp [hd] at this ⊢
        simp [this]
    simp [ModelCatalogService.getDefaultCompletionModel, hf]
  · rintro l₁ m l₂ rfl hm hl₁
    have hf : (l₁ ++ m :: l₂).find? (fun m => m.is_chat_default.getD false) = some m := by
      induction l₁ with
      | nil =>
        simp [List.find?_cons, isChatDefaultTruthy] at hm ⊢
        simp [hm]
      | cons a as ih =>
        have ha : ¬ isChatDefaultTruthy a := hl₁ a (List.mem_cons_self a as)
        have ha' : a.is_chat_default.getD false = false := by
          simp [isChatDefaultTruthy] at ha
          rcases hd : a.is_chat_default with _ | b
          · simp
          · simp [hd] at ha
            simp [ha]
        simp only [List.cons_append, List.find?_cons, ha']
        exact ih (fun x hx => hl₁ x (List.mem_cons_of_mem a hx))
    simp [ModelCatalogService.getDefaultCompletionModel, hf]

/-- An unflagged and a flagged completion model, for the C10 witness. -/
def c10m1 : FeimaModelAPIResponse :=
  { id := "m1", capabilities := { type := ModelType.completion } }

/-- A completion model flagged `is_chat_default`. -/
def c10m2 : FeimaModelAPIResponse :=
  { id := "m2", is_chat_default := some true,
    capabilities := { type := ModelType.completion } }

/-- C10 witness: on `[c10m1, c10m2]` the flagged second model is selected. -/
theorem getDefaultCompletionModel_spec_witness :
    ModelCatalogService.getDefaultCompletionModel [c10m1, c10m2] = some c10m2 :=
  (getDefaultCompletionModel_spec [c10m1, c10m2]).2.2 [c10m1] c10m2 [] rfl rfl
    (by intro x hx; simp at hx; subst hx; simp [isChatDefaultTruthy, c10m1])

/-! ## C3 — makeChatRequest with no session -/

/-- C3 (counterexample): with no authenticated session and a valid message
list, `makeChatRequest` does NOT return the structured
`{type:error, reason:"Not authenticated"}` result — it propagates the
exception thrown by `getAuthToken` (the `await this.getAuthToken()` call sits
outside the `try` block). -/
theorem makeChatRequest_not_authenticated_counterexample :
    (FeimaChatEndpoint.makeChatRequest c3Env c3Messages none ToolMode.auto).fst
        = Except.error "Not authenticated"
    ∧ (FeimaChatEndpoint.makeChatRequest c3Env c3Messages none ToolMode.auto).fst
        ≠ Except.ok (ChatResponse.error "Not authenticated") := by
  decide

/-- C3 (amended): when the authentication service yields no session and the
request passes validation, `makeChatRequest` throws an `Error` whose message
is `Not authenticated` (propagating the exception from `getAuthToken` to its
caller) and issues no HTTP request; the structured error return is not
produced on this path. -/
theorem makeChatRequest_no_session_throws (env : ChatRequestEnv)
    (messages : List ChatMessage) (tools : Option (List ChatTool))
    (toolMode : ToolMode) (hsess : env.sessions = [])
    (hval : FeimaChatEndpoint.validateRequest messages tools toolMode = Except.ok ()) :
    FeimaChatEndpoint.makeChatRequest env messages tools toolMode
      = (Except.error "Not authenticated", 0) := by
  simp [FeimaChatEndpoint.makeChatRequest, hval, FeimaChatEndpoint.getAuthToken, hsess]

/-- C3 amended witness at the concrete no-session environment. -/
theorem makeChatRequest_no_session_throws_witness :
    FeimaChatEndpoint.makeChatRequest c3Env c3Messages none ToolMode.auto
      = (Except.error "Not authenticated", 0) :=
  makeChatRequest_no_session_throws c3Env c3Messages none ToolMode.auto rfl rfl

/-! ## C6 — getSessions on a corrupted stored blob -/

/-- A state whose secret-store blob fails `JSON.parse`. -/
def c6St : AuthState :=
  { secret := some (Except.error ())
    cached := [⟨"s", "t", "u", "l"⟩]
    events := [] }

/-- An environment for the corrupted-blob scenario. -/
def c6Env : AuthEnv := { now := 0, refreshOutcome := Except.error () }

/-- C6 (counterexample): on a corrupted stored blob, `getSessions` returns an
empty session list but does NOT discard the stored token from the secret
store — the unparseable blob is still there afterwards (`_loadStoredToken`
merely returns `undefined`; no `_clearStoredToken` happens on this path). -/
theorem getSessions_corrupted_counterexample :
    (FeimaAuthenticationService.getSessions c6Env c6St).snd = []
    ∧ (FeimaAuthenticationService.getSessions c6Env c6St).fst.secret ≠ none := by
  decide

/-- C6 (amended): whenever the stored token blob fails to parse, `getSessions`
clears the cached-session slot and returns an empty session list with no
session-change event fired; the corrupted blob remains in the secret store
(only the cache field of the state changes). -/
theorem getSessions_corrupted_blob (env : AuthEnv) (st : AuthState)
    (h : st.secret = some (Except.error ())) :
    FeimaAuthenticationService.getSessions env st = ({ st with cached := [] }, []) := by
  simp [FeimaAuthenticationService.getSessions, FeimaAuthenticationService.loadStoredToken, h]

/-- C6 amended witness at the concrete corrupted state. -/
theorem getSessions_corrupted_blob_witness :
    FeimaAuthenticationService.getSessions c6Env c6St = ({ c6St with cached := [] }, []) :=
  getSessions_corrupted_blob c6Env c6St rfl

/-! ## C4 — refresh preserves the stored refresh token -/

/-- C4: when `getSessions` refreshes and `refreshAccessToken` succeeds but
returns no `refresh_token` (JavaScript-falsy: absent or empty), the refresh
token of the previously stored session is present in the newly persisted
`StoredSession`. -/
theorem getSessions_preserves_refresh_token (env : AuthEnv) (st : AuthState)
    (stored : IStoredTokenData) (refreshed : ITokenResponse)
    (hsec : st.secret = some (Except.ok stored))
    (href : OAuth2Service.shouldRefreshToken stored.tokenResponse stored.issuedAt env.now = true)
    (htok : jsTruthyStr stored.tokenResponse.refresh_token = true)
    (hout : env.refreshOutcome = Except.ok refreshed)
    (hnew : jsTruthyStr refreshed.refresh_token = false) :
    ∃ d, (FeimaAuthenticationService.getSessions env st).fst.secret = some (Except.ok d)
      ∧ d.tokenResponse.refresh_token = stored.tokenResponse.refresh_token := by
  simp [FeimaAuthenticationService.getSessions, FeimaAuthenticationService.loadStoredToken,
    hsec, href, htok, hout, hnew]

/-- Stored data for the C4 witness: an expiring token with refresh token RT1. -/
def c4Stored : IStoredTokenData :=
  { tokenResponse := { access_token := "AT1", refresh_token := some "RT1", expires_in := some 3600 }
    issuedAt := 0
    sessionId := "sid"
    accountId := "u1"
    accountLabel := "u@e" }

/-- C4 witness environment: 100 seconds before expiry; the refresh returns a
new access token and no refresh token. -/
def c4Env : AuthEnv :=
  { now := 3500000
    refreshOutcome := Except.ok { access_token := "AT2", expires_in := some 3600 } }

/-- C4 witness state. -/
def c4St : AuthState := { secret := some (Except.ok c4Stored), cached := [], events := [] }

/-- C4 witness: RT1 survives the refresh. -/
theorem getSessions_preserves_refresh_token_witness :
    ∃ d, (FeimaAuthenticationService.getSessions c4Env c4St).fst.secret = some (Except.ok d)
      ∧ d.tokenResponse.refresh_token = c4Stored.tokenResponse.refresh_token :=
  getSessions_preserves_refresh_token c4Env c4St c4Stored
    { access_token := "AT2", expires_in := some 3600 } rfl (by decide) (by decide) rfl rfl

/-! ## C5 — refresh failure clears state, fires nothing, returns [] -/

/-- C5: when the refresh attempt fails, `getSessions` clears the stored token
from the secret store, clears the cached-session slot, fires no
session-change event (the `events` field is untouched by the record update),
and returns the empty session list. -/
theorem getSessions_refresh_failure (env : AuthEnv) (st : AuthState)
    (stored : IStoredTokenData)
    (hsec : st.secret = some (Except.ok stored))
    (href : OAuth2Service.shouldRefreshToken stored.tokenResponse stored.issuedAt env.now = true)
    (htok : jsTruthyStr stored.tokenResponse.refresh_token = true)
    (hout : env.refreshOutcome = Except.error ()) :
    FeimaAuthenticationService.getSessions env st
      = ({ st with secret := none, cached := [] }, []) := by
  simp [FeimaAuthenticationService.getSessions, FeimaAuthenticationService.loadStoredToken,
    hsec, href, htok, hout]

/-- Stored data for the C5 witness. -/
def c5Stored : IStoredTokenData :=
  { tokenResponse := { access_token := "AT1", refresh_token := some "RT1", expires_in := some 3600 }
    issuedAt := 0
    sessionId := "sid"
    accountId := "u1"
    accountLabel := "u@e" }

/-- C5 witness environment: refresh due, identity provider fails the refresh. -/
def c5Env : AuthEnv := { now := 3500000, refreshOutcome := Except.error () }

/-- C5 witness state. -/
def c5St : AuthState :=
  { secret := some (Except.ok c5Stored), cached := [⟨"sid", "AT1", "u1", "u@e"⟩], events := [] }

/-- C5 witness. -/
theorem getSessions_refresh_failure_witness :
    FeimaAuthenticationService.getSessions c5Env c5St
      = ({ c5St with secret := none, cached := [] }, []) :=
  getSessions_refresh_failure c5Env c5St c5Stored rfl (by decide) (by decide) rfl

/-! ## C7 — non-2xx models fetch leaves the caches untouched -/

/-- C7: when the models GET returns a non-2xx status (and the fetch was
actually performed: cache invalid, authenticated with a non-empty token),
the catalog logs the error, leaves the three per-type model lists and
`lastFetch` unchanged, and the public catalog operations return the prior
lists without throwing (they are total functions of the model, mirroring the
catch-all in `_fetchIfNeeded`). -/
theorem fetchIfNeeded_non2xx (env : CatalogEnv) (st : CatalogState) (force : Bool)
    (resp : ModelsFetchResponse) (tok : String)
    (hfetch : env.fetchOutcome = Except.ok resp)
    (hok : resp.ok = false)
    (htok : env.authToken = some tok) (htokne : tok ≠ "")
    (hcache : ModelCatalogService.cacheValid env st = false) :
    (ModelCatalogService.fetchIfNeeded env st force).chatModels = st.chatModels
    ∧ (ModelCatalogService.fetchIfNeeded env st force).completionModels = st.completionModels
    ∧ (ModelCatalogService.fetchIfNeeded env st force).embeddingModels = st.embeddingModels
    ∧ (ModelCatalogService.fetchIfNeeded env st force).lastFetch = st.lastFetch
    ∧ (∃ msg, (ModelCatalogService.fetchIfNeeded env st force).logs = st.logs ++ [msg])
    ∧ (ModelCatalogService.getChatModels env st).snd = st.chatModels
    ∧ (ModelCatalogService.getCompletionModels env st).snd = st.completionModels
    ∧ (ModelCatalogService.getEmbeddingModels env st).snd = st.embeddingModels := by
  have hgen : ∀ b : Bool, ModelCatalogService.fetchIfNeeded env st b
      = { st with logs := st.logs ++ ["Failed to fetch models: " ++ toString resp.status
            ++ " " ++ resp.statusText ++ ": Error fetching models"] } := by
    intro b
    simp [ModelCatalogService.fetchIfNeeded, hcache, htok,
      ModelCatalogService.fetchAttempt, htokne, hfetch, hok]
  refine ⟨?_, ?_, ?_, ?_,
    ⟨"Failed to fetch models: " ++ toString resp.status ++ " " ++ resp.statusText
      ++ ": Error fetching models", ?_⟩, ?_, ?_, ?_⟩ <;>
    simp [hgen, ModelCatalogService.getChatModels, ModelCatalogService.getCompletionModels,
      ModelCatalogService.getEmbeddingModels]

/-- C7 witness environment: authenticated, server answers HTTP 500. -/
def c7Env : CatalogEnv :=
  { now := 10000000
    authToken := some "tok"
    fetchOutcome := Except.ok { ok := false, status := 500, statusText := "Server Error" } }

/-- C7 witness state: a stale cache fetched long ago. -/
def c7St : CatalogState :=
  { chatModels := [c10m1]
    completionModels := [c10m2]
    embeddingModels := []
    lastFetch := 0
    logs := [] }

/-- C7 witness: the three lists survive a failed fetch. -/
theorem fetchIfNeeded_non2xx_witness :
    (ModelCatalogService.fetchIfNeeded c7Env c7St true).chatModels = c7St.chatModels
    ∧ (ModelCatalogService.fetchIfNeeded c7Env c7St true).completionModels = c7St.completionModels
    ∧ (ModelCatalogService.fetchIfNeeded c7Env c7St true).embeddingModels = c7St.embeddingModels
    ∧ (ModelCatalogService.fetchIfNeeded c7Env c7St true).lastFetch = c7St.lastFetch
    ∧ (∃ msg, (ModelCatalogService.fetchIfNeeded c7Env c7St true).logs = c7St.logs ++ [msg])
    ∧ (ModelCatalogService.getChatModels c7Env c7St).snd = c7St.chatModels
    ∧ (ModelCatalogService.getCompletionModels c7Env c7St).snd = c7St.completionModels
    ∧ (ModelCatalogService.getEmbeddingModels c7Env c7St).snd = c7St.embeddingModels :=
  fetchIfNeeded_non2xx c7Env c7St true _ "tok" rfl rfl rfl (by decide) (by decide)

/-! ## C2 — finish_reason emission does not clear the tool-call map -/

/-- A stream that accumulates one complete tool call, then sees a
`finish_reason`, then `[DONE]`. -/
def c2Events : List SSEData :=
  [SSEData.event none none none (some [⟨some 0, some "tc_1", some "search", some "\x7b\x7d"⟩]) none,
   SSEData.event none none none none (some "tool_calls"),
   SSEData.done]

/-- C2 (counterexample): after the `finish_reason` emission the entries CAN
be emitted again — on `c2Events` the endpoint delivers the tool call
`tc_1` in three deltas (at `finish_reason`, at `[DONE]`, and at the
stream-end flush), because the map is never cleared. -/
theorem parseSSE_reemission_counterexample :
    ¬ ((FeimaChatEndpoint.parseSSEDeltas c2Events).countP
        (fun d => deltaCarriesId d "tc_1") ≤ 1) := by
  decide

/-- C2 (amended): when an event's `finish_reason` is present (truthy) and the
tool-call map is non-empty, the endpoint collects the entries having both a
non-empty id and a non-empty name and sets them as `toolCalls` on the emitted
delta — but it does NOT clear the map (the stream state is returned
unchanged), so the very same complete entries are delivered to the callback
again at `[DONE]` (second conjunct) and at stream end; at-most-once delivery
to the host is enforced by the wrapper's emitted-id set instead. -/
theorem processData_finish_no_clear (st : SSEState) (f : String)
    (hf : f ≠ "") (hm : st.toolCallsMap ≠ [])
    (hc : FeimaChatEndpoint.completedCalls st.toolCallsMap ≠ []) :
    FeimaChatEndpoint.processData st (SSEData.event none none none none (some f))
      = (st, [{ toolCalls := some (FeimaChatEndpoint.completedCalls st.toolCallsMap) }])
    ∧ FeimaChatEndpoint.processData st SSEData.done
      = (st, [{ toolCalls := some (FeimaChatEndpoint.completedCalls st.toolCallsMap) }]) := by
  constructor
  · simp [FeimaChatEndpoint.processData, hf, hm, hc]
  · simp [FeimaChatEndpoint.processData, hm, hc]

/-- A stream state holding one complete accumulated tool call. -/
def c2State : SSEState :=
  { fullText := "", toolCallsMap := [(0, ⟨"tc_1", "search", "\x7b\x7d"⟩)] }

/-- C2 amended witness at the concrete one-entry map. -/
theorem processData_finish_no_clear_witness :
    FeimaChatEndpoint.processData c2State (SSEData.event none none none none (some "tool_calls"))
      = (c2State, [{ toolCalls := some (FeimaChatEndpoint.completedCalls c2State.toolCallsMap) }])
    ∧ FeimaChatEndpoint.processData c2State SSEData.done
      = (c2State, [{ toolCalls := some (FeimaChatEndpoint.completedCalls c2State.toolCallsMap) }]) :=
  processData_finish_no_clear c2State "tool_calls" (by decide) (by decide) (by decide)

/-! ## C1 — at most one ToolCallPart per id reaches the host -/

/-- The wrapper-state invariant behind deduplication: every id already
reported as a `ToolCallPart` is in `reportedToolCallIds`, and the reported
tool-call ids are pairwise distinct. -/
def WrapperInv (w : WrapperState) : Prop :=
  (∀ s ∈ emittedToolCallIds w.out, s ∈ w.reported) ∧ (emittedToolCallIds w.out).Nodup

theorem emitted_append_text (out : List ReportedPart) (t : String) :
    emittedToolCallIds (out ++ [ReportedPart.textPart t]) = emittedToolCallIds out := by
  simp [emittedToolCallIds]

theorem emitted_append_tool (out : List ReportedPart) (i n a : String) :
    emittedToolCallIds (out ++ [ReportedPart.toolCallPart i n a])
      = emittedToolCallIds out ++ [i] := by
  simp [emittedToolCallIds]

theorem processCalls_inv (jsonOk : String → Bool) (cs : List ToolCallEntry) :
    ∀ w : WrapperState, WrapperInv w →
      WrapperInv (FeimaLanguageModelWrapper.processCalls jsonOk w cs).fst := by
  induction cs with
  | nil => intro w h; exact h
  | cons c cs ih =>
    intro w h
    have hemit : c.id ∉ w.reported → ∀ a : String,
        WrapperInv (FeimaLanguageModelWrapper.processCalls jsonOk
          { reported := c.id :: w.reported,
            out := w.out ++ [ReportedPart.toolCallPart c.id c.name a] } cs).fst := by
      intro h2 a
      apply ih
      constructor
      · intro s hs
        rw [emitted_append_tool] at hs
        rcases List.mem_append.mp hs with hs | hs
        · exact List.mem_cons_of_mem _ (h.1 s hs)
        · simp only [List.mem_singleton] at hs
          subst hs
          exact List.mem_cons_self _ _
      · rw [emitted_append_tool]
        have hnotin : c.id ∉ emittedToolCallIds w.out := fun hin => h2 (h.1 _ hin)
        simp [List.nodup_append, h.2, hnotin]
    simp only [FeimaLanguageModelWrapper.processCalls]
    split_ifs <;>
      first
      | exact ih w h
      | exact h
      | exact hemit (by assumption) _

theorem reportText_inv (w : WrapperState) (text : Option String) (h : WrapperInv w) :
    WrapperInv (FeimaLanguageModelWrapper.reportText w text) := by
  cases text with
  | none => exact h
  | some t =>
    by_cases ht : t = ""
    · simpa [FeimaLanguageModelWrapper.reportText, ht] using h
    · simp only [FeimaLanguageModelWrapper.reportText, if_pos ht]
      constructor
      · intro s hs
        rw [emitted_append_text] at hs
        exact h.1 s hs
      · rw [emitted_append_text]
        exact h.2

theorem onDelta_inv (jsonOk : String → Bool) (w : WrapperState) (delta : StreamDelta)
    (h : WrapperInv w) :
    WrapperInv (FeimaLanguageModelWrapper.onDelta jsonOk w delta).fst := by
  have h1 := reportText_inv w delta.text h
  simp only [FeimaLanguageModelWrapper.onDelta]
  cases delta.toolCalls with
  | none => exact h1
  | some calls => exact processCalls_inv jsonOk calls _ h1

theorem runRequest_inv (jsonOk : String → Bool) (events : List SSEData) :
    ∀ (sse : SSEState) (w : WrapperState), WrapperInv w →
      WrapperInv (FeimaChatEndpoint.runRequest jsonOk events sse w) := by
  induction events with
  | nil =>
    intro sse w h
    simp only [FeimaChatEndpoint.runRequest]
    split_ifs with h1 h2
    · exact onDelta_inv jsonOk w _ h
    · exact h
    · exact h
  | cons d ds ih =>
    intro sse w h
    cases d with
    | done =>
      simp only [FeimaChatEndpoint.runRequest]
      rcases hpd : FeimaChatEndpoint.processData sse SSEData.done with ⟨sse', deltas⟩
      simp only [hpd]
      cases deltas with
      | nil => exact ih sse' w h
      | cons delta rest =>
        rcases hod : FeimaLanguageModelWrapper.onDelta jsonOk w delta with ⟨w', threw⟩
        have hw' : WrapperInv w' := by
          have h2 := onDelta_inv jsonOk w delta h
          rw [hod] at h2
          exact h2
        simp only [hod]
        cases threw with
        | false => simpa using ih sse' w' hw'
        | true => simpa using hw'
    | malformed =>
      simp only [FeimaChatEndpoint.runRequest]
      rcases hpd : FeimaChatEndpoint.processData sse SSEData.malformed with ⟨sse', deltas⟩
      simp only [hpd]
      cases deltas with
      | nil => exact ih sse' w h
      | cons delta rest =>
        rcases hod : FeimaLanguageModelWrapper.onDelta jsonOk w delta with ⟨w', threw⟩
        have hw' : WrapperInv w' := by
          have h2 := onDelta_inv jsonOk w delta h
          rw [hod] at h2
          exact h2
        simp only [hod]
        exact ih sse' w' hw'
    | noChoice =>
      simp only [FeimaChatEndpoint.runRequest]
      rcases hpd : FeimaChatEndpoint.processData sse SSEData.noChoice with ⟨sse', deltas⟩
      simp only [hpd]
      cases deltas with
      | nil => exact ih sse' w h
      | cons delta rest =>
        rcases hod : FeimaLanguageModelWrapper.onDelta jsonOk w delta with ⟨w', threw⟩
        have hw' : WrapperInv w' := by
          have h2 := onDelta_inv jsonOk w delta h
          rw [hod] at h2
          exact h2
        simp only [hod]
        exact ih sse' w' hw'
    | event content thinkingC marker frags finish =>
      simp only [FeimaChatEndpoint.runRequest]
      rcases hpd : FeimaChatEndpoint.processData sse
          (SSEData.event content thinkingC marker frags finish) with ⟨sse', deltas⟩
      simp only [hpd]
      cases deltas with
      | nil => exact ih sse' w h
      | cons delta rest =>
        rcases hod : FeimaLanguageModelWrapper.onDelta jsonOk w delta with ⟨w', threw⟩
        have hw' : WrapperInv w' := by
          have h2 := onDelta_inv jsonOk w delta h
          rw [hod] at h2
          exact h2
        simp only [hod]
        exact ih sse' w' hw'

/-- C1: for every stream of SSE events, every JSON-parse oracle, and every
tool-call id `T`, at most one `ToolCallPart` with id `T` is reported to the
host progress sink by the combined endpoint+wrapper execution of a chat
request — even though the endpoint delivers the same complete tool call in
more than one delta (at `finish_reason`, `[DONE]`, and stream end), the
wrapper's `reportedToolCallIds` set suppresses every repeat. -/
theorem toolCallPart_reported_at_most_once (jsonOk : String → Bool)
    (events : List SSEData) (T : String) :
    (emittedToolCallIds (FeimaChatEndpoint.runRequestFromStart jsonOk events).out).count T
      ≤ 1 := by
  have h0 : WrapperInv { reported := [], out := [] } := by
    constructor
    · intro s hs
      simp [emittedToolCallIds] at hs
    · simp [emittedToolCallIds]
  have h := runRequest_inv jsonOk events { fullText := "", toolCallsMap := [] }
    { reported := [], out := [] } h0
  exact List.nodup_iff_count_le_one.mp h.2 T

/-! ## Extra witnesses at concrete inputs -/

/-- C1 witness: on the duplicate-delivering stream `c2Events` the combined
run reports `tc_1` at most once. -/
theorem toolCallPart_reported_at_most_once_witness :
    (emittedToolCallIds
      (FeimaChatEndpoint.runRequestFromStart (fun _ => true) c2Events).out).count "tc_1" ≤ 1 :=
  toolCallPart_reported_at_most_once (fun _ => true) c2Events "tc_1"

/-- C8 witness at a concrete environment. -/
theorem makeChatRequest_empty_messages_witness :
    FeimaChatEndpoint.makeChatRequest c3Env [] none ToolMode.auto
      = (Except.error "Invalid request: no messages.", 0) :=
  makeChatRequest_empty_messages c3Env none ToolMode.auto

/-- C9 amended witness: a token about to expire (100 s left) must refresh. -/
theorem shouldRefreshToken_spec_witness :
    OAuth2Service.shouldRefreshToken
      { access_token := "a", expires_in := some 3600 } 0 3500000 = true :=
  (shouldRefreshToken_spec { access_token := "a", expires_in := some 3600 } 0 3500000).mpr
    ⟨3600, rfl, by norm_num, by norm_num⟩
